import Mathlib

/-!
Verification of the action-orchestration engine of `day-12-regoose`
(`regoose/core/orchestrator.py`, `regoose/actions/base.py`,
`regoose/scenarios/base.py`, `regoose/scenarios/code_improvement.py`).

Python dictionaries are modelled as association lists (`Dict α`), Python
values stored in the shared context as the inductive `Value`, floats arising
from `len(...)` arithmetic as exact rationals `ℚ`, sets of change signatures
as `Finset String`, and the raised `RuntimeError` of `execute_plan` as
`Except String`.  Action `execute` methods perform external I/O (LLM calls,
filesystem, subprocesses); they are modelled as opaque total functions
`ActionContext → ActionResult` supplied as parameters (the orchestrator
wraps raised exceptions into error results, so totality is faithful at the
orchestrator boundary).  In-place mutation of the shared context by an
action body itself is outside the model.
-/

/-- Association-list model of a Python `dict` with string keys. -/
abbrev Dict (α : Type) : Type := List (String × α)

/-- Lookup: value of the first binding of `k` (bindings built by `dictSet`
have unique keys, matching Python dicts). -/
def dictGet {α : Type} : Dict α → String → Option α
  | [], _ => none
  | (k', v) :: rest, k => if k = k' then some v else dictGet rest k

/-- `d[k] = v` in Python: replace the value at an existing key in place,
otherwise append the new binding. -/
def dictSet {α : Type} (d : Dict α) (k : String) (v : α) : Dict α :=
  if ∃ p ∈ d, p.1 = k then
    d.map (fun p => if p.1 = k then (k, v) else p)
  else
    d ++ [(k, v)]

/-- `d.update(e)` in Python: set every binding of `e` into `d`, in order. -/
def dictUpdate {α : Type} (d e : Dict α) : Dict α :=
  e.foldl (fun acc p => dictSet acc p.1 p.2) d

/-- Value of the last binding of `k` in a binding list (the one that
survives a Python `dict.update` fed with these bindings). -/
def lastVal {α : Type} : Dict α → String → Option α
  | [], _ => none
  | (k', v') :: rest, k =>
    match lastVal rest k with
    | some v => some v
    | none => if k = k' then some v' else none

/-- First-defined choice on optional values. -/
def optOr {α : Type} : Option α → Option α → Option α
  | some v, _ => some v
  | none, b => b

/-- Python values stored in an `ActionContext`'s data map. -/
inductive Value : Type where
  | vnone : Value
  | vbool : Bool → Value
  | vint : Int → Value
  | vstr : String → Value
  | vlist : List Value → Value
  | vdict : List (String × Value) → Value

/-- Python truthiness of a value (`if value:`). -/
def Value.truthy : Value → Bool
  | .vnone => false
  | .vbool b => b
  | .vint n => n != 0
  | .vstr s => s != ""
  | .vlist xs => !xs.isEmpty
  | .vdict xs => !xs.isEmpty

/-- Python `d.get(key, default)` on a dict value.  Calling `.get` on a
non-dict raises `AttributeError` in Python; that path is not modelled and
returns the default. -/
def Value.vget (v : Value) (key : String) (dflt : Value) : Value :=
  match v with
  | .vdict xs =>
    match dictGet xs key with
    | some w => w
    | none => dflt
  | _ => dflt

/-- Python `str(...)`/f-string rendering of a value.  Change signatures and
error texts interpolate strings and numbers; the `repr`-style rendering of
compound values is not modelled further. -/
def Value.pyStr : Value → String
  | .vstr s => s
  | .vint n => toString n
  | .vbool b => if b then "True" else "False"
  | .vnone => "None"
  | .vlist _ => "<list>"
  | .vdict _ => "<dict>"

/-- `ActionResult` (`regoose/actions/base.py`). -/
structure ActionResult : Type where
  success : Bool
  data : Dict Value
  artifacts : Dict String
  error : Option String

/-- `ActionResult.success_result(data, artifacts)`. -/
def ActionResult.success_result (data : Dict Value) (artifacts : Dict String) : ActionResult :=
  ⟨true, data, artifacts, none⟩

/-- `ActionResult.error_result(error, data)` (the orchestrator always calls
it with the default `data={}`). -/
def ActionResult.error_result (error : String) (data : Dict Value) : ActionResult :=
  ⟨false, data, [], some error⟩

/-- One record of `ActionContext.history`
(`{"action", "success", "error", "data_keys"}`). -/
structure HistoryEntry : Type where
  action : String
  success : Bool
  error : Option String
  data_keys : List String

/-- `ActionContext` (`regoose/actions/base.py`). -/
structure ActionContext : Type where
  data : Dict Value
  artifacts : Dict String
  history : List HistoryEntry

/-- `ActionContext()` with no initial data. -/
def empty_context : ActionContext := ⟨[], [], []⟩

/-- `context.get(key, default)`. -/
def ActionContext.get (ctx : ActionContext) (key : String) (dflt : Value) : Value :=
  match dictGet ctx.data key with
  | some v => v
  | none => dflt

/-- A registered action: its `get_dependencies()` list and its (opaque)
`execute` behaviour. -/
structure ActionImpl : Type where
  get_dependencies : List String
  execute : ActionContext → ActionResult

/-- The action registry `self.actions`, as a partial map from names. -/
abbrev Registry : Type := String → Option ActionImpl

/-- `[h["action"] for h in context.history if h["success"]]`. -/
def successful_actions (hist : List HistoryEntry) : List String :=
  (hist.filter (fun h => h.success)).map (fun h => h.action)

/-- The first declared dependency lacking a successful history entry
(the orchestrator's dependency loop returns on the first such). -/
def firstMissingDep (deps : List String) (hist : List HistoryEntry) : Option String :=
  deps.find? (fun d => !((successful_actions hist).contains d))

/-- `ActionOrchestrator._execute_action`: unknown-action check, dependency
validation, then the action's own `execute` (whose raised exceptions the
orchestrator folds into error results). -/
def execute_action (acts : Registry) (name : String) (ctx : ActionContext) : ActionResult :=
  match acts name with
  | none => ActionResult.error_result ("Unknown action: " ++ name) []
  | some a =>
    match firstMissingDep a.get_dependencies ctx.history with
    | some d => ActionResult.error_result ("Missing dependency: " ++ d) []
    | none => a.execute ctx

/-- Whether `_execute_action` reaches the line `result = await
action.execute(context)` (instrumentation used to state "the action's
execute is never invoked"). -/
def action_execute_invoked (acts : Registry) (name : String) (ctx : ActionContext) : Bool :=
  match acts name with
  | none => false
  | some a => (firstMissingDep a.get_dependencies ctx.history).isNone

/-- The context update after a successful action (`execute_plan` lines
88-90): `context.update(result.data)`, `context.add_artifacts(
result.artifacts)`, `context.add_to_history(step, result)`. -/
def merge_result (ctx : ActionContext) (step : String) (r : ActionResult) : ActionContext :=
  { data := dictUpdate ctx.data r.data,
    artifacts := dictUpdate ctx.artifacts r.artifacts,
    history := ctx.history ++ [⟨step, r.success, r.error, r.data.map (fun p => p.1)⟩] }

/-- f-string rendering of an `Optional[str]` (`None` prints as `"None"`). -/
def optErrStr : Option String → String
  | none => "None"
  | some s => s

/-- Outcome of running (a suffix of) a plan: the indices of the steps whose
`execute` was invoked, the state of the shared mutable context at exit, and
the returned context or the raised `RuntimeError`'s message. -/
structure PlanRun : Type where
  invoked : List Nat
  exitContext : ActionContext
  outcome : Except String ActionContext

/-- The step loop of `ActionOrchestrator.execute_plan` (every plan step is
a string, so the `isinstance(step, str)` guard always holds). -/
def execute_plan_go (acts : Registry) : ActionContext → Nat → List String → PlanRun
  | ctx, _, [] => ⟨[], ctx, Except.ok ctx⟩
  | ctx, i, step :: rest =>
    let r := execute_action acts step ctx
    let inv := action_execute_invoked acts step ctx
    if r.success then
      let next := execute_plan_go acts (merge_result ctx step r) (i + 1) rest
      ⟨(if inv then [i] else []) ++ next.invoked, next.exitContext, next.outcome⟩
    else
      ⟨if inv then [i] else [], ctx,
        Except.error ("Action '" ++ step ++ "' failed: " ++ optErrStr r.error)⟩

/-- Initial context of `execute_plan`: `ActionContext(initial_data)` then
`context.set("timestamp", ...)` and `context.set("correlation_id", ...)`
(the stamped strings are parameters, as `datetime.now()` and the
correlation id are environment-dependent). -/
def initial_context (input : Dict Value) (ts cid : String) : ActionContext :=
  { data := dictSet (dictSet input "timestamp" (Value.vstr ts)) "correlation_id" (Value.vstr cid),
    artifacts := [], history := [] }

/-- `ActionOrchestrator.execute_plan(plan, initial_data)`. -/
def execute_plan (acts : Registry) (ts cid : String) (plan : List String)
    (input : Dict Value) : PlanRun :=
  execute_plan_go acts (initial_context input ts cid) 0 plan

/-- `ScenarioResult` (`regoose/scenarios/base.py`). -/
structure ScenarioResult : Type where
  success : Bool
  context : ActionContext
  artifacts : Dict String
  error : Option String

/-- `ScenarioResult.success_result(context, artifacts)`: the artifacts
field is `artifacts or context.artifacts` (a `None` or empty dict argument
falls back to the context's artifacts). -/
def ScenarioResult.success_result (ctx : ActionContext) (artifacts : Option (Dict String)) :
    ScenarioResult :=
  ⟨true, ctx,
    (match artifacts with
     | some a => if a.isEmpty then ctx.artifacts else a
     | none => ctx.artifacts),
    none⟩

/-- `ScenarioResult.error_result(error, context)`: `context or
ActionContext()`, so a missing context argument yields a fresh empty one. -/
def ScenarioResult.error_result (e : String) (ctx : Option ActionContext) : ScenarioResult :=
  ⟨false,
    (match ctx with
     | some c => c
     | none => empty_context),
    [], some e⟩

/-- The fixed plan built by `CodeImprovementScenario.execute`. -/
def code_improvement_plan : List String :=
  ["analyze_codebase", "plan_improvements", "implement_changes",
   "validate_changes", "generate_improvement_report"]

/-- The names registered by `ActionOrchestrator._register_actions` (the
keys of the returned dict; `register_action` is never called anywhere in
the repository). -/
def registered_action_names : List String :=
  ["analyze_code", "generate_tests", "run_tests", "generate_report",
   "github_read_pr", "github_analyze_pr", "github_publish_review",
   "mcp_pr_review", "analyze_codebase", "plan_improvements",
   "implement_changes", "validate_changes"]

/-- `_register_actions`: every registered action class uses the base
`get_dependencies` (or overrides it to return `[]`), and its `execute`
behaviour is opaque (LLM/tool I/O), supplied here as `beh`. -/
def register_actions (beh : String → ActionContext → ActionResult) : Registry :=
  fun name =>
    if name ∈ registered_action_names then some ⟨[], beh name⟩ else none

/-- `CodeImprovementScenario.execute(input_data)`: run the fixed plan; on
success wrap the context, on a raised error return
`ScenarioResult.error_result(f"Code improvement scenario failed: {e}")`
(note: called without a context argument). -/
def code_improvement_execute (acts : Registry) (ts cid : String)
    (input : Dict Value) : ScenarioResult :=
  match (execute_plan acts ts cid code_improvement_plan input).outcome with
  | Except.ok ctx => ScenarioResult.success_result ctx none
  | Except.error e =>
    ScenarioResult.error_result ("Code improvement scenario failed: " ++ e) none

/-- `CodeImprovementScenario._calculate_convergence_score`: `0.0` when the
previous set is empty (Python `if not previous_changes`), otherwise the
intersection size over the union size (the `else 1.0` branch guards a
division by zero that cannot occur when the previous set is non-empty).
Float arithmetic is modelled exactly over `ℚ`. -/
def calculate_convergence_score (previous_changes new_changes : Finset String) : ℚ :=
  if previous_changes = ∅ then 0
  else
    let overlap := (previous_changes ∩ new_changes).card
    let total_unique := (previous_changes ∪ new_changes).card
    if 0 < total_unique then (overlap : ℚ) / (total_unique : ℚ) else 1

/-- The keyword list of `_is_critical_error`. -/
def critical_keywords : List String :=
  ["authentication", "authorization", "permission", "security", "fatal"]

/-- Python `needle in hay` on strings: some suffix of `hay` starts with
`needle`. -/
def strContainsSub (hay needle : String) : Bool :=
  (List.range (hay.toList.length + 1)).any
    (fun i => needle.toList.isPrefixOf (hay.toList.drop i))

/-- Python `str.lower()`, character by character (the keywords and the
modelled messages are ASCII, where `Char.toLower` agrees with Python). -/
def strToLower (s : String) : String := ⟨s.data.map Char.toLower⟩

/-- `CodeImprovementScenario._is_critical_error`: `None` and the empty
string are falsy (`if not error`), otherwise lower-case the message and
look for any critical keyword as a substring. -/
def is_critical_error (error : Option String) : Bool :=
  match error with
  | none => false
  | some e =>
    if e = "" then false
    else critical_keywords.any (fun k => strContainsSub (strToLower e) k)

/-- `CodeImprovementScenario._extract_changes_from_context`: collect
`f"{result['file']}:{result.get('change_type', 'unknown')}"` over the
entries of `implementation_results` whose `success` and `file` are truthy.
Iterating a non-list value raises in Python and is not modelled. -/
def extract_changes_from_context (ctx : ActionContext) : Finset String :=
  match ctx.get "implementation_results" (Value.vlist []) with
  | Value.vlist results =>
    results.foldl
      (fun changes r =>
        if (r.vget "success" Value.vnone).truthy && (r.vget "file" Value.vnone).truthy then
          insert
            ((r.vget "file" Value.vnone).pyStr ++ ":"
              ++ (r.vget "change_type" (Value.vstr "unknown")).pyStr)
            changes
        else changes)
      ∅
  | _ => ∅

/-- `CodeImprovementScenario._all_validations_pass`: an empty collection is
falsy and fails; otherwise every entry must have truthy `syntax_valid` and
`file_readable`.  Iterating a non-list raises in Python and is not
modelled. -/
def all_validations_pass (validation_results : Value) : Bool :=
  match validation_results with
  | Value.vlist [] => false
  | Value.vlist results =>
    results.all
      (fun r => (r.vget "syntax_valid" (Value.vbool false)).truthy
        && (r.vget "file_readable" (Value.vbool false)).truthy)
  | _ => false

/-- The early-termination test of `execute_with_iterations`:
`validation_results = current_context.get("validation_results", [])` and
`if validation_results and self._all_validations_pass(validation_results)`. -/
def validation_stop_check (ctx : ActionContext) : Bool :=
  (ctx.get "validation_results" (Value.vlist [])).truthy
    && all_validations_pass (ctx.get "validation_results" (Value.vlist []))

/-- One entry of `iteration_results` in `execute_with_iterations`. -/
structure IterationRecord : Type where
  iteration : Nat
  success : Bool
  error : Option String
  artifacts : Dict String

/-- Python `f"{successful/total*100:.1f}"` for the summary's success rate
(one-decimal rounding; Python's round-half-even tie-breaking is modelled as
round-half-up, which differs only at exact ties). -/
def format_rate_1f (successful total : Nat) : String :=
  let n10 : ℚ := (successful : ℚ) / (total : ℚ) * 100 * 10
  let r : Int := ⌊n10 + 1 / 2⌋
  toString (r / 10) ++ "." ++ toString (r % 10)

/-- The per-iteration section of `_generate_iteration_summary` (a falsy —
`None` or empty — error prints no error line; an empty artifact dict prints
no artifact block). -/
def record_section (r : IterationRecord) : String :=
  let status := if r.success then "✅ SUCCESS" else "❌ FAILED"
  "### Iteration " ++ toString r.iteration ++ " - " ++ status ++ "\n\n"
    ++ (match r.error with
        | some e => if e = "" then "" else "**Error:** " ++ e ++ "\n\n"
        | none => "")
    ++ (if r.artifacts.isEmpty then ""
        else "**Artifacts Generated:**\n"
          ++ String.join (r.artifacts.map (fun p => "- " ++ p.1 ++ "\n")) ++ "\n")

/-- The summary text built by `_generate_iteration_summary`. -/
def iteration_summary_text (results : List IterationRecord) (goal : String) : String :=
  let total := results.length
  let successful := (results.filter (fun r => r.success)).length
  "# Iterative Code Improvement Summary\n\n"
    ++ "**Goal:** " ++ goal ++ "\n"
    ++ "**Total Iterations:** " ++ toString total ++ "\n"
    ++ "**Successful Iterations:** " ++ toString successful ++ "\n"
    ++ "**Success Rate:** " ++ format_rate_1f successful total ++ "%\n\n"
    ++ "## Iteration Results\n\n"
    ++ String.join (results.map record_section)
    ++ (if successful = total then
          "## ✅ Overall Assessment: ALL ITERATIONS SUCCESSFUL\n\n"
            ++ "All planned improvements were implemented successfully.\n"
        else if 0 < successful then
          "## ⚠️ Overall Assessment: PARTIALLY SUCCESSFUL\n\n"
            ++ toString successful ++ " out of " ++ toString total
            ++ " iterations completed successfully.\n"
        else
          "## ❌ Overall Assessment: FAILED\n\n"
            ++ "No iterations completed successfully. Review errors and try again.\n")

/-- `_generate_iteration_summary`: a one-key artifact dict. -/
def generate_iteration_summary (results : List IterationRecord) (goal : String) : Dict String :=
  [("iteration_summary.md", iteration_summary_text results goal)]

/-- `context.add_artifacts(artifacts)`. -/
def add_artifacts (ctx : ActionContext) (arts : Dict String) : ActionContext :=
  { ctx with artifacts := dictUpdate ctx.artifacts arts }

/-- The loop state of `execute_with_iterations`. -/
structure IterState : Type where
  records : List IterationRecord
  current_context : Option ActionContext
  convergence_score : ℚ
  previous_changes : Finset String

/-- The `for iteration in range(1, max_iterations + 1)` loop of
`CodeImprovementScenario.execute_with_iterations`.  `runPass j` is the
result of the single-pass `self.execute(iteration_input)` at iteration `j`
(opaque: it depends on LLM and tool I/O; any concrete run realises some
such function).  `j` is the current iteration number and `rem` the number
of iterations still allowed (initially `max_iterations`).  Returning the
state without a recursive call models `break`. -/
def iterate_go (runPass : Nat → ScenarioResult) : Nat → Nat → IterState → IterState
  | _, 0, st => st
  | j, rem + 1, st =>
    let result := runPass j
    let st1 : IterState :=
      { st with records := st.records ++ [⟨j, result.success, result.error, result.artifacts⟩] }
    if !result.success then
      -- smart error handling: break on critical errors only
      if is_critical_error result.error then st1
      else iterate_go runPass (j + 1) rem st1
    else
      let ctx := result.context
      let st2 : IterState := { st1 with current_context := some ctx }
      if 1 < j then
        let new_changes := extract_changes_from_context ctx
        let score := calculate_convergence_score st2.previous_changes new_changes
        let st3 : IterState := { st2 with convergence_score := score }
        if score > 85 / 100 then st3
        else if score < 1 / 10 ∧ 2 ≤ j then st3
        else
          let st4 : IterState := { st3 with previous_changes := st3.previous_changes ∪ new_changes }
          if validation_stop_check ctx then st4
          else iterate_go runPass (j + 1) rem st4
      else
        if validation_stop_check ctx then st2
        else iterate_go runPass (j + 1) rem st2

/-- `CodeImprovementScenario.execute_with_iterations`.  `goal` and
`max_iterations` are the values read from `input_data` at entry; the rest
of the iteration input only feeds the opaque per-pass behaviour `runPass`.
With zero iterations the summary's success-rate division raises
`ZeroDivisionError`, caught by the surrounding handler. -/
def execute_with_iterations (runPass : Nat → ScenarioResult) (goal : String)
    (max_iterations : Nat) : ScenarioResult :=
  let st := iterate_go runPass 1 max_iterations ⟨[], none, 0, ∅⟩
  if st.records.isEmpty then
    ScenarioResult.error_result "Iterative improvement failed: division by zero" none
  else
    let final_artifacts := generate_iteration_summary st.records goal
    ScenarioResult.success_result
      (match st.current_context with
       | some ctx => add_artifacts ctx final_artifacts
       | none => empty_context)
      (some final_artifacts)

/-! ### Lemmas about the dictionary model -/

theorem dictGet_map_set_self {α : Type} (k : String) (v : α) :
    ∀ d : Dict α, (∃ p ∈ d, p.1 = k) →
      dictGet (d.map (fun p => if p.1 = k then (k, v) else p)) k = some v := by
  intro d
  induction d with
  | nil => rintro ⟨q, hq, _⟩; cases hq
  | cons p rest ih =>
    intro h
    by_cases hk : p.1 = k
    · simp only [List.map_cons, if_pos hk]
      simp [dictGet]
    · have hrest : ∃ q ∈ rest, q.1 = k := by
        rcases h with ⟨q, hq, hqk⟩
        rcases List.mem_cons.mp hq with rfl | hq'
        · exact absurd hqk hk
        · exact ⟨q, hq', hqk⟩
      have hne : ¬ (k = p.1) := fun he => hk he.symm
      simp only [List.map_cons, if_neg hk]
      simp [dictGet, hne, ih hrest]

theorem dictGet_append {α : Type} (k : String) :
    ∀ d e : Dict α,
      dictGet (d ++ e) k =
        (match dictGet d k with
         | some v => some v
         | none => dictGet e k) := by
  intro d e
  induction d with
  | nil => simp [dictGet]
  | cons p rest ih =>
    by_cases hk : k = p.1
    · simp [dictGet, hk]
    · simp [dictGet, hk, ih]

theorem dictGet_dictSet_self {α : Type} (d : Dict α) (k : String) (v : α) :
    dictGet (dictSet d k v) k = some v := by
  unfold dictSet
  by_cases h : ∃ p ∈ d, p.1 = k
  · simp only [h, if_true]
    exact dictGet_map_set_self k v d h
  · simp only [h, if_false]
    rw [dictGet_append]
    have hnone : dictGet d k = none := by
      induction d with
      | nil => rfl
      | cons p rest ih =>
        have hne : ¬ (k = p.1) := by
          intro he
          exact h ⟨p, List.mem_cons_self p rest, he.symm⟩
        have hrest : ¬ ∃ q ∈ rest, q.1 = k := by
          intro ⟨q, hq, hqk⟩
          exact h ⟨q, List.mem_cons_of_mem p hq, hqk⟩
        simp [dictGet, hne, ih hrest]
    simp [hnone, dictGet]

theorem dictGet_map_set_ne {α : Type} (k k' : String) (v : α) (h : k ≠ k') :
    ∀ d : Dict α,
      dictGet (d.map (fun p => if p.1 = k' then (k', v) else p)) k = dictGet d k := by
  intro d
  induction d with
  | nil => rfl
  | cons p rest ih =>
    by_cases hp : p.1 = k'
    · have hne : ¬ (k = p.1) := fun he => h (he.trans hp)
      simp only [List.map_cons, if_pos hp]
      simp [dictGet, hne, h, ih]
    · simp only [List.map_cons, if_neg hp]
      simp [dictGet, ih]

theorem dictGet_dictSet_ne {α : Type} (d : Dict α) (k k' : String) (v : α)
    (h : k ≠ k') : dictGet (dictSet d k' v) k = dictGet d k := by
  unfold dictSet
  by_cases hc : ∃ p ∈ d, p.1 = k'
  · simp only [hc, if_true]
    exact dictGet_map_set_ne k k' v h d
  · simp only [hc, if_false]
    rw [dictGet_append]
    cases hd : dictGet d k with
    | some w => rfl
    | none => simp [dictGet, h]

theorem dictGet_dictUpdate {α : Type} (k : String) :
    ∀ (e d : Dict α),
      dictGet (dictUpdate d e) k = optOr (lastVal e k) (dictGet d k) := by
  intro e
  induction e with
  | nil => intro d; simp [dictUpdate, lastVal, optOr]
  | cons p rest ih =>
    intro d
    have step : dictUpdate d (p :: rest) = dictUpdate (dictSet d p.1 p.2) rest := rfl
    rw [step, ih]
    cases hr : lastVal rest k with
    | some v => simp [lastVal, hr, optOr]
    | none =>
      by_cases hk : k = p.1
      · subst hk
        simp [lastVal, hr, optOr, dictGet_dictSet_self]
      · simp [lastVal, hr, hk, optOr, dictGet_dictSet_ne d k p.1 p.2 hk]


/-! ### Lemmas about the plan runner -/

theorem invoked_of_success {acts : Registry} {s : String} {ctx : ActionContext}
    (h : (execute_action acts s ctx).success = true) :
    action_execute_invoked acts s ctx = true := by
  unfold execute_action at h
  unfold action_execute_invoked
  cases hA : acts s with
  | none => simp [hA, ActionResult.error_result] at h
  | some a =>
    simp only [hA] at h ⊢
    cases hd : firstMissingDep a.get_dependencies ctx.history with
    | some d => simp [hd, ActionResult.error_result] at h
    | none => simp [hd]

theorem execute_plan_go_cons_success (acts : Registry) (ctx : ActionContext)
    (i : Nat) (s : String) (rest : List String)
    (h : (execute_action acts s ctx).success = true) :
    execute_plan_go acts ctx i (s :: rest) =
      ⟨i :: (execute_plan_go acts (merge_result ctx s (execute_action acts s ctx)) (i + 1) rest).invoked,
       (execute_plan_go acts (merge_result ctx s (execute_action acts s ctx)) (i + 1) rest).exitContext,
       (execute_plan_go acts (merge_result ctx s (execute_action acts s ctx)) (i + 1) rest).outcome⟩ := by
  simp [execute_plan_go, h, invoked_of_success h]

theorem execute_plan_go_cons_failure (acts : Registry) (ctx : ActionContext)
    (i : Nat) (s : String) (rest : List String)
    (h : (execute_action acts s ctx).success = false) :
    execute_plan_go acts ctx i (s :: rest) =
      ⟨if action_execute_invoked acts s ctx then [i] else [], ctx,
       Except.error ("Action '" ++ s ++ "' failed: " ++ optErrStr (execute_action acts s ctx).error)⟩ := by
  simp [execute_plan_go, h]

theorem execute_plan_go_invoked_lt (acts : Registry) :
    ∀ (steps : List String) (ctx : ActionContext) (i : Nat),
      ∀ j ∈ (execute_plan_go acts ctx i steps).invoked, j < i + steps.length := by
  intro steps
  induction steps with
  | nil => intro ctx i j hj; simp [execute_plan_go] at hj
  | cons s rest ih =>
    intro ctx i j hj
    by_cases h : (execute_action acts s ctx).success = true
    · rw [execute_plan_go_cons_success acts ctx i s rest h] at hj
      rcases List.mem_cons.mp hj with rfl | hj'
      · simp
      · have := ih (merge_result ctx s (execute_action acts s ctx)) (i + 1) j hj'
        simp at this ⊢
        omega
    · have h' : (execute_action acts s ctx).success = false := by
        simpa using h
      rw [execute_plan_go_cons_failure acts ctx i s rest h'] at hj
      by_cases hinv : action_execute_invoked acts s ctx = true
      · rw [if_pos hinv] at hj
        rcases List.mem_singleton.mp hj with rfl
        simp
      · rw [if_neg hinv] at hj
        cases hj

theorem execute_plan_go_append (acts : Registry) :
    ∀ (pre : List String) (ctx ctx' : ActionContext) (i : Nat) (post : List String),
      (execute_plan_go acts ctx i pre).outcome = Except.ok ctx' →
      execute_plan_go acts ctx i (pre ++ post) =
        ⟨(execute_plan_go acts ctx i pre).invoked
           ++ (execute_plan_go acts ctx' (i + pre.length) post).invoked,
         (execute_plan_go acts ctx' (i + pre.length) post).exitContext,
         (execute_plan_go acts ctx' (i + pre.length) post).outcome⟩ := by
  intro pre
  induction pre with
  | nil =>
    intro ctx ctx' i post h
    have hctx : ctx = ctx' := by
      simpa [execute_plan_go] using h
    subst hctx
    simp [execute_plan_go]
  | cons s pre' ih =>
    intro ctx ctx' i post h
    by_cases hs : (execute_action acts s ctx).success = true
    · rw [execute_plan_go_cons_success acts ctx i s pre' hs] at h
      have h' : (execute_plan_go acts (merge_result ctx s (execute_action acts s ctx)) (i + 1) pre').outcome
          = Except.ok ctx' := h
      have harith : i + 1 + pre'.length = i + (s :: pre').length := by
        rw [List.length_cons]
        omega
      rw [List.cons_append,
        execute_plan_go_cons_success acts ctx i s (pre' ++ post) hs,
        ih (merge_result ctx s (execute_action acts s ctx)) ctx' (i + 1) post h',
        execute_plan_go_cons_success acts ctx i s pre' hs,
        harith]
      simp
    · have hs' : (execute_action acts s ctx).success = false := by
        simpa using hs
      rw [execute_plan_go_cons_failure acts ctx i s pre' hs'] at h
      simp at h

/-! ### C2: merge semantics -/

/-- C2: in `execute_plan`, after an action returning `success=true` the
context's data is `dictUpdate` of the old data with the result's data, so
every key of the result's data map is looked up at exactly the result's
(last) value for it — later writes overwrite earlier ones — and every other
key keeps its previous value; after an action returning `success=false` the
run stops with the shared context exactly as it was before that action. -/
theorem C2_merge_invariant (acts : Registry) (s : String) (ctx : ActionContext)
    (i : Nat) (rest : List String) (k : String) :
    dictGet (merge_result ctx s (execute_action acts s ctx)).data k
        = optOr (lastVal (execute_action acts s ctx).data k) (dictGet ctx.data k)
    ∧ (execute_plan_go acts ctx i (s :: rest)).exitContext
        = (if (execute_action acts s ctx).success then
             (execute_plan_go acts (merge_result ctx s (execute_action acts s ctx)) (i + 1) rest).exitContext
           else ctx)
    ∧ (execute_plan_go acts ctx i (s :: rest)).outcome
        = (if (execute_action acts s ctx).success then
             (execute_plan_go acts (merge_result ctx s (execute_action acts s ctx)) (i + 1) rest).outcome
           else Except.error ("Action '" ++ s ++ "' failed: "
                  ++ optErrStr (execute_action acts s ctx).error)) := by
  refine ⟨?_, ?_, ?_⟩
  · show dictGet (dictUpdate ctx.data (execute_action acts s ctx).data) k = _
    exact dictGet_dictUpdate k (execute_action acts s ctx).data ctx.data
  · cases hs : (execute_action acts s ctx).success with
    | true =>
      rw [execute_plan_go_cons_success acts ctx i s rest hs]
      simp
    | false =>
      rw [execute_plan_go_cons_failure acts ctx i s rest hs]
      simp
  · cases hs : (execute_action acts s ctx).success with
    | true =>
      rw [execute_plan_go_cons_success acts ctx i s rest hs]
      simp
    | false =>
      rw [execute_plan_go_cons_failure acts ctx i s rest hs]
      simp

/-! ### C1: fail-fast -/

theorem listIsPrefixOf_refl (l : List Char) : l.isPrefixOf l = true := by
  induction l with
  | nil => rfl
  | cons c rest ih => simp [List.isPrefixOf, ih]

theorem strContainsSub_suffix (x y : String) : strContainsSub (x ++ y) y = true := by
  unfold strContainsSub
  rw [List.any_eq_true]
  refine ⟨x.toList.length, ?_, ?_⟩
  · rw [List.mem_range]
    have : (x ++ y).toList = x.toList ++ y.toList := by
      simp [String.toList]
    rw [this, List.length_append]
    omega
  · have : (x ++ y).toList = x.toList ++ y.toList := by
      simp [String.toList]
    rw [this, List.drop_left]
    exact listIsPrefixOf_refl y.toList

/-- C1: fail-fast.  If the plan reaches position `i = pre.length` with
context `ctxI` (the prefix succeeded), the action there is registered with
its dependencies met, and its `execute` returns `success=false`, then the
whole plan invocation fails, the raised error's message embeds the failing
action's reported error message, and no step at a later position is ever
invoked (every invoked index is at most `pre.length`). -/
theorem C1_fail_fast (acts : Registry) (ts cid : String) (input : Dict Value)
    (pre post : List String) (s : String) (a : ActionImpl) (ctxI : ActionContext)
    (hpre : (execute_plan_go acts (initial_context input ts cid) 0 pre).outcome
      = Except.ok ctxI)
    (ha : acts s = some a)
    (hdeps : firstMissingDep a.get_dependencies ctxI.history = none)
    (hfail : (a.execute ctxI).success = false) :
    (execute_plan acts ts cid (pre ++ s :: post) input).outcome
        = Except.error ("Action '" ++ s ++ "' failed: " ++ optErrStr (a.execute ctxI).error)
    ∧ strContainsSub ("Action '" ++ s ++ "' failed: " ++ optErrStr (a.execute ctxI).error)
        (optErrStr (a.execute ctxI).error) = true
    ∧ ∀ j ∈ (execute_plan acts ts cid (pre ++ s :: post) input).invoked, j ≤ pre.length := by
  have hEA : execute_action acts s ctxI = a.execute ctxI := by
    simp [execute_action, ha, hdeps]
  unfold execute_plan
  rw [execute_plan_go_append acts pre (initial_context input ts cid) ctxI 0 (s :: post) hpre]
  rw [execute_plan_go_cons_failure acts ctxI (0 + pre.length) s post (by rw [hEA]; exact hfail)]
  rw [hEA]
  refine ⟨rfl, strContainsSub_suffix _ _, ?_⟩
  intro j hj
  simp only [PlanRun.invoked] at hj
  rcases List.mem_append.mp hj with hj' | hj'
  · have := execute_plan_go_invoked_lt acts pre (initial_context input ts cid) 0 j hj'
    omega
  · by_cases hinv : action_execute_invoked acts s ctxI = true
    · rw [if_pos hinv] at hj'
      rcases List.mem_singleton.mp hj' with rfl
      omega
    · rw [if_neg hinv] at hj'
      cases hj'

/-- Concrete opaque behaviours used in the C1/C6 witnesses: the first plan
step succeeds with data, the next one fails. -/
def c6Beh : String → ActionContext → ActionResult := fun name _ =>
  if name = "analyze_codebase" then
    ActionResult.success_result [("analysis", Value.vstr "A")] []
  else
    ActionResult.error_result "implementation failed" []

/-- The context after the successful `analyze_codebase` step of the
`c6Beh` run. -/
def c1CtxI : ActionContext :=
  ⟨[("timestamp", Value.vstr "T"), ("correlation_id", Value.vstr "C"),
    ("analysis", Value.vstr "A")],
   [],
   [⟨"analyze_codebase", true, none, ["analysis"]⟩]⟩

theorem C1_fail_fast_witness :
    (execute_plan (register_actions c6Beh) "T" "C" code_improvement_plan []).outcome
        = Except.error "Action 'plan_improvements' failed: implementation failed"
    ∧ ∀ j ∈ (execute_plan (register_actions c6Beh) "T" "C" code_improvement_plan []).invoked,
        j ≤ 1 := by
  have h := C1_fail_fast (register_actions c6Beh) "T" "C" [] ["analyze_codebase"]
    ["implement_changes", "validate_changes", "generate_improvement_report"]
    "plan_improvements" ⟨[], c6Beh "plan_improvements"⟩ c1CtxI rfl rfl rfl rfl
  exact ⟨h.1, h.2.2⟩

/-! ### C3: dependency validation -/

theorem find_pred_of_eq_some {α : Type} (p : α → Bool) :
    ∀ (l : List α) (y : α), l.find? p = some y → p y = true ∧ y ∈ l := by
  intro l
  induction l with
  | nil => intro y h; simp [List.find?] at h
  | cons a rest ih =>
    intro y h
    by_cases hpa : p a = true
    · simp [List.find?, hpa] at h
      subst h
      exact ⟨hpa, List.mem_cons_self a rest⟩
    · have hpa' : p a = false := by simpa using hpa
      simp [List.find?, hpa'] at h
      rcases ih y h with ⟨h1, h2⟩
      exact ⟨h1, List.mem_cons_of_mem a h2⟩

theorem find_some_of_mem {α : Type} (p : α → Bool) :
    ∀ (l : List α) (x : α), x ∈ l → p x = true → ∃ y, l.find? p = some y := by
  intro l
  induction l with
  | nil => intro x hx; cases hx
  | cons a rest ih =>
    intro x hx hp
    by_cases hpa : p a = true
    · exact ⟨a, by simp [List.find?, hpa]⟩
    · have hpa' : p a = false := by simpa using hpa
      rcases List.mem_cons.mp hx with rfl | hx'
      · exact absurd hp hpa
      · rcases ih x hx' hp with ⟨y, hy⟩
        exact ⟨y, by simp [List.find?, hpa', hy]⟩

/-- C3: dependency validation.  If the plan reaches position `pre.length`
with context `ctxI`, the action there is registered and declares a
dependency `d` with no successful history record, then the dependency scan
finds an unmet dependency `d0` (also declared and unmet), the whole plan
invocation fails with an error naming `d0`, and no `execute` at position
`pre.length` or later is ever invoked. -/
theorem C3_dependency_validation (acts : Registry) (ts cid : String) (input : Dict Value)
    (pre post : List String) (s : String) (a : ActionImpl) (d : String) (ctxI : ActionContext)
    (hpre : (execute_plan_go acts (initial_context input ts cid) 0 pre).outcome
      = Except.ok ctxI)
    (ha : acts s = some a)
    (hd : d ∈ a.get_dependencies)
    (hmiss : (successful_actions ctxI.history).contains d = false) :
    ∃ d0, firstMissingDep a.get_dependencies ctxI.history = some d0
      ∧ d0 ∈ a.get_dependencies
      ∧ (successful_actions ctxI.history).contains d0 = false
      ∧ (execute_plan acts ts cid (pre ++ s :: post) input).outcome
          = Except.error ("Action '" ++ s ++ "' failed: " ++ ("Missing dependency: " ++ d0))
      ∧ ∀ j ∈ (execute_plan acts ts cid (pre ++ s :: post) input).invoked, j < pre.length := by
  obtain ⟨d0, hfind⟩ :=
    find_some_of_mem (fun x => !((successful_actions ctxI.history).contains x))
      a.get_dependencies d hd
      (by show (!((successful_actions ctxI.history).contains d)) = true; rw [hmiss]; rfl)
  obtain ⟨hd0pred, hd0mem⟩ :=
    find_pred_of_eq_some (fun x => !((successful_actions ctxI.history).contains x))
      a.get_dependencies d0 hfind
  have hd0miss : (successful_actions ctxI.history).contains d0 = false := by
    simpa using hd0pred
  have hfmd : firstMissingDep a.get_dependencies ctxI.history = some d0 := hfind
  have hEA : execute_action acts s ctxI
      = ActionResult.error_result ("Missing dependency: " ++ d0) [] := by
    unfold execute_action
    simp only [ha, hfmd]
  have hInv : action_execute_invoked acts s ctxI = false := by
    unfold action_execute_invoked
    simp only [ha, hfmd]
    rfl
  refine ⟨d0, hfmd, hd0mem, hd0miss, ?_, ?_⟩
  · unfold execute_plan
    rw [execute_plan_go_append acts pre (initial_context input ts cid) ctxI 0 (s :: post) hpre]
    rw [execute_plan_go_cons_failure acts ctxI (0 + pre.length) s post
      (by rw [hEA]; rfl)]
    rw [hEA]
    rfl
  · intro j hj
    unfold execute_plan at hj
    rw [execute_plan_go_append acts pre (initial_context input ts cid) ctxI 0 (s :: post) hpre] at hj
    rw [execute_plan_go_cons_failure acts ctxI (0 + pre.length) s post
      (by rw [hEA]; rfl)] at hj
    simp only [PlanRun.invoked] at hj
    rw [hInv] at hj
    simp only [Bool.false_eq_true, if_false, List.append_nil] at hj
    have := execute_plan_go_invoked_lt acts pre (initial_context input ts cid) 0 j hj
    omega

/-- Registry for the C3 witness: the spec's concrete scenario #1, where
`implement` declares dependency `plan` and the plan omits `plan`. -/
def c3Acts : Registry := fun name =>
  if name = "analyze" then
    some ⟨[], fun _ => ActionResult.success_result [("analysis", Value.vstr "A")] []⟩
  else if name = "implement" then
    some ⟨["plan"], fun _ => ActionResult.success_result [] []⟩
  else none

/-- The context after the successful `analyze` step of the `c3Acts` run. -/
def c3CtxI : ActionContext :=
  ⟨[("timestamp", Value.vstr "T"), ("correlation_id", Value.vstr "C"),
    ("analysis", Value.vstr "A")],
   [],
   [⟨"analyze", true, none, ["analysis"]⟩]⟩

theorem C3_dependency_validation_witness :
    (execute_plan c3Acts "T" "C" ["analyze", "implement"] []).outcome
        = Except.error "Action 'implement' failed: Missing dependency: plan"
    ∧ ∀ j ∈ (execute_plan c3Acts "T" "C" ["analyze", "implement"] []).invoked, j < 1 := by
  obtain ⟨d0, hfind, _, _, hout, hinv⟩ :=
    C3_dependency_validation c3Acts "T" "C" [] ["analyze"] [] "implement"
      ⟨["plan"], fun _ => ActionResult.success_result [] []⟩ "plan" c3CtxI
      rfl rfl (by simp) rfl
  have hd0 : d0 = "plan" := by
    have h2 : (some "plan" : Option String) = some d0 :=
      (rfl : firstMissingDep ["plan"] c3CtxI.history = some "plan").symm.trans hfind
    exact (Option.some.inj h2).symm
  subst hd0
  exact ⟨hout, hinv⟩

/-! ### C6: what context the caller receives on failure -/

/-- C6 (amended): when the plan raises partway, `CodeImprovementScenario.
execute` catches the exception and returns `ScenarioResult.error_result`
WITHOUT a context argument, so the returned error result carries a fresh
empty context — the data merged by prior successful actions is not attached
(it is lost with the raised `RuntimeError`, which carries only a message). -/
theorem C6_error_result_context_empty (acts : Registry) (ts cid : String)
    (input : Dict Value) (e : String)
    (h : (execute_plan acts ts cid code_improvement_plan input).outcome = Except.error e) :
    code_improvement_execute acts ts cid input
      = ScenarioResult.error_result ("Code improvement scenario failed: " ++ e) none
    ∧ (code_improvement_execute acts ts cid input).success = false
    ∧ (code_improvement_execute acts ts cid input).context.data = [] := by
  have hc : code_improvement_execute acts ts cid input
      = ScenarioResult.error_result ("Code improvement scenario failed: " ++ e) none := by
    unfold code_improvement_execute
    rw [h]
  refine ⟨hc, ?_, ?_⟩ <;> rw [hc] <;> rfl

/-- C6 counterexample: in the `c6Beh` run, `analyze_codebase` succeeded and
its data was merged into the shared context before `plan_improvements`
failed, yet the `ScenarioResult` returned to the caller has an empty
context: the prior data is NOT present in the error's attached context. -/
theorem C6_counterexample :
    dictGet (execute_plan (register_actions c6Beh) "T" "C" code_improvement_plan
        []).exitContext.data "analysis" = some (Value.vstr "A")
    ∧ (code_improvement_execute (register_actions c6Beh) "T" "C" []).success = false
    ∧ (code_improvement_execute (register_actions c6Beh) "T" "C" []).context.data = []
    ∧ dictGet (code_improvement_execute (register_actions c6Beh) "T" "C" []).context.data
        "analysis" = none :=
  ⟨rfl, rfl, rfl, rfl⟩

theorem C6_error_result_context_empty_witness :
    code_improvement_execute (register_actions c6Beh) "T" "C" []
      = ScenarioResult.error_result
          "Code improvement scenario failed: Action 'plan_improvements' failed: implementation failed"
          none
    ∧ (code_improvement_execute (register_actions c6Beh) "T" "C" []).context.data = [] := by
  have h := C6_error_result_context_empty (register_actions c6Beh) "T" "C" []
    "Action 'plan_improvements' failed: implementation failed" rfl
  exact ⟨h.1, h.2.2⟩

/-! ### C9: the unregistered final plan step -/

theorem plan_ok_all_registered (acts : Registry) :
    ∀ (steps : List String) (ctx : ActionContext) (i : Nat) (c : ActionContext),
      (execute_plan_go acts ctx i steps).outcome = Except.ok c →
      ∀ s ∈ steps, (acts s).isSome = true := by
  intro steps
  induction steps with
  | nil => intro ctx i c _ s hs; cases hs
  | cons s rest ih =>
    intro ctx i c hok t ht
    by_cases h : (execute_action acts s ctx).success = true
    · rw [execute_plan_go_cons_success acts ctx i s rest h] at hok
      rcases List.mem_cons.mp ht with rfl | htr
      · unfold execute_action at h
        cases hA : acts t with
        | none => simp [hA, ActionResult.error_result] at h
        | some a => simp [hA]
      · exact ih (merge_result ctx s (execute_action acts s ctx)) (i + 1) c hok t htr
    · have h' : (execute_action acts s ctx).success = false := by simpa using h
      rw [execute_plan_go_cons_failure acts ctx i s rest h'] at hok
      simp at hok

/-- C9: `generate_improvement_report`, the final step of the plan built by
`CodeImprovementScenario.execute`, is not a key of the registry built by
`_register_actions` (and `register_action` is never called), so a single
pass always fails — the plan either fails earlier (fail-fast) or reaches
the unregistered step and fails there — whatever the registered actions'
opaque behaviours do. -/
theorem C9_single_pass_always_fails (beh : String → ActionContext → ActionResult)
    (ts cid : String) (input : Dict Value) :
    (code_improvement_execute (register_actions beh) ts cid input).success = false
    ∧ register_actions beh "generate_improvement_report" = none
    ∧ "generate_improvement_report" ∈ code_improvement_plan := by
  have hnone : register_actions beh "generate_improvement_report" = none := rfl
  have hmem : "generate_improvement_report" ∈ code_improvement_plan := by
    simp [code_improvement_plan]
  refine ⟨?_, hnone, hmem⟩
  cases hout : (execute_plan (register_actions beh) ts cid code_improvement_plan input).outcome with
  | ok c =>
    exfalso
    have := plan_ok_all_registered (register_actions beh) code_improvement_plan
      (initial_context input ts cid) 0 c hout "generate_improvement_report" hmem
    rw [hnone] at this
    simp at this
  | error e =>
    unfold code_improvement_execute
    rw [hout]
    rfl

/-! ### C4: convergence-score bounds -/

theorem calc_score_empty_prev (N : Finset String) :
    calculate_convergence_score ∅ N = 0 := by
  simp [calculate_convergence_score]

/-- C4 counterexample: with both signature sets empty the code returns
`0.0`, not the claimed `1.0` (the `if not previous_changes` guard fires
before the both-empty case is ever considered). -/
theorem C4_counterexample :
    calculate_convergence_score ∅ ∅ = 0
    ∧ ¬ (calculate_convergence_score ∅ ∅ = 1) := by
  refine ⟨calc_score_empty_prev ∅, ?_⟩
  rw [calc_score_empty_prev ∅]
  norm_num

/-- C4 (amended): for all signature sets `P, N` the score lies in `[0,1]`;
it equals `1.0` iff `P = N` and `P` is non-empty (NOT when both are empty —
then it is `0.0`); and it equals `0.0` iff `P ∩ N = ∅` (including when
either or both sets are empty). -/
theorem C4_convergence_bounds (P N : Finset String) :
    (0 ≤ calculate_convergence_score P N ∧ calculate_convergence_score P N ≤ 1)
    ∧ (calculate_convergence_score P N = 1 ↔ (P = N ∧ P.Nonempty))
    ∧ (calculate_convergence_score P N = 0 ↔ P ∩ N = ∅) := by
  by_cases hP : P = ∅
  · subst hP
    rw [calc_score_empty_prev N]
    refine ⟨⟨le_refl 0, by norm_num⟩, ?_, ?_⟩
    · constructor
      · intro h; exact absurd h (by norm_num)
      · rintro ⟨_, hne⟩; exact absurd hne Finset.not_nonempty_empty
    · simp
  · have hPne : P.Nonempty := Finset.nonempty_iff_ne_empty.mpr hP
    have hUne : (P ∪ N).Nonempty := hPne.mono Finset.subset_union_left
    have hU : 0 < (P ∪ N).card := Finset.card_pos.mpr hUne
    have hscore : calculate_convergence_score P N
        = ((P ∩ N).card : ℚ) / ((P ∪ N).card : ℚ) := by
      simp [calculate_convergence_score, hP, hU]
    have hUQ : (0 : ℚ) < ((P ∪ N).card : ℚ) := by exact_mod_cast hU
    have hUQne : ((P ∪ N).card : ℚ) ≠ 0 := ne_of_gt hUQ
    have hle : (P ∩ N).card ≤ (P ∪ N).card :=
      Finset.card_le_card (Finset.inter_subset_union)
    refine ⟨⟨?_, ?_⟩, ?_, ?_⟩
    · rw [hscore]
      positivity
    · rw [hscore, div_le_one hUQ]
      exact_mod_cast hle
    · rw [hscore]
      constructor
      · intro h1
        have hcard : (P ∩ N).card = (P ∪ N).card := by
          field_simp at h1
          exact_mod_cast h1
        have hsets : P ∩ N = P ∪ N :=
          Finset.eq_of_subset_of_card_le Finset.inter_subset_union (le_of_eq hcard.symm)
        have hPN : P = N := by
          apply Finset.Subset.antisymm
          · intro x hx
            have hxu : x ∈ P ∪ N := Finset.mem_union_left _ hx
            rw [← hsets] at hxu
            exact (Finset.mem_inter.mp hxu).2
          · intro x hx
            have hxu : x ∈ P ∪ N := Finset.mem_union_right _ hx
            rw [← hsets] at hxu
            exact (Finset.mem_inter.mp hxu).1
        exact ⟨hPN, hPne⟩
      · rintro ⟨rfl, _⟩
        rw [Finset.inter_self, Finset.union_self]
        rw [div_self]
        intro h0
        have : P.card = 0 := by exact_mod_cast h0
        exact hP (Finset.card_eq_zero.mp this)
    · rw [hscore]
      rw [div_eq_zero_iff]
      constructor
      · rintro (h0 | h0)
        · have : (P ∩ N).card = 0 := by exact_mod_cast h0
          exact Finset.card_eq_zero.mp this
        · exact absurd h0 hUQne
      · intro hI
        left
        rw [hI]
        simp

/-! ### C8: critical-error classification -/

/-- C8: `_is_critical_error` returns true exactly when the lower-cased
message contains one of the fixed keywords as a substring; `None` and the
empty string are never classified critical. -/
theorem C8_critical_classification (e : Option String) :
    (is_critical_error e = true ↔
      ∃ k ∈ critical_keywords, strContainsSub (strToLower (e.getD "")) k = true)
    ∧ is_critical_error none = false
    ∧ is_critical_error (some "") = false := by
  refine ⟨?_, rfl, rfl⟩
  cases e with
  | none =>
    simp only [is_critical_error, Option.getD]
    constructor
    · intro h; cases h
    · intro h
      exact absurd h (by decide)
  | some s =>
    by_cases hs : s = ""
    · subst hs
      simp only [is_critical_error, Option.getD, if_pos rfl]
      constructor
      · intro h; cases h
      · intro h
        exact absurd h (by decide)
    · simp only [is_critical_error, Option.getD, if_neg hs]
      rw [List.any_eq_true]

/-! ### Lemmas about the iteration loop -/

theorem iterate_go_fail_noncrit (runPass : Nat → ScenarioResult) (j rem : Nat) (st : IterState)
    (hs : (runPass j).success = false)
    (hc : is_critical_error (runPass j).error = false) :
    iterate_go runPass j (rem + 1) st =
      iterate_go runPass (j + 1) rem
        { st with records := st.records
            ++ [⟨j, (runPass j).success, (runPass j).error, (runPass j).artifacts⟩] } := by
  simp [iterate_go, hs, hc]

theorem iterate_go_fail_crit (runPass : Nat → ScenarioResult) (j rem : Nat) (st : IterState)
    (hs : (runPass j).success = false)
    (hc : is_critical_error (runPass j).error = true) :
    iterate_go runPass j (rem + 1) st =
      { st with records := st.records
          ++ [⟨j, (runPass j).success, (runPass j).error, (runPass j).artifacts⟩] } := by
  simp [iterate_go, hs, hc]

theorem iterate_go_succ_one (runPass : Nat → ScenarioResult) (rem : Nat) (st : IterState)
    (hs : (runPass 1).success = true)
    (hv : validation_stop_check (runPass 1).context = false) :
    iterate_go runPass 1 (rem + 1) st =
      iterate_go runPass 2 rem
        { st with
            records := st.records
              ++ [⟨1, (runPass 1).success, (runPass 1).error, (runPass 1).artifacts⟩],
            current_context := some (runPass 1).context } := by
  simp [iterate_go, hs, hv]

theorem iterate_go_succ_ge2_empty_prev (runPass : Nat → ScenarioResult) (j rem : Nat)
    (st : IterState)
    (hj : 2 ≤ j)
    (hs : (runPass j).success = true)
    (hprev : st.previous_changes = ∅) :
    iterate_go runPass j (rem + 1) st =
      { st with
          records := st.records
            ++ [⟨j, (runPass j).success, (runPass j).error, (runPass j).artifacts⟩],
          current_context := some (runPass j).context,
          convergence_score := 0 } := by
  have h1j : 1 < j := hj
  have hscore : calculate_convergence_score st.previous_changes
      (extract_changes_from_context (runPass j).context) = 0 := by
    rw [hprev, calc_score_empty_prev]
  simp only [iterate_go, hs, Bool.not_true, Bool.false_eq_true, if_false, if_pos h1j, hscore]
  rw [if_neg (by norm_num : ¬ ((0 : ℚ) > 85 / 100))]
  rw [if_pos ⟨by norm_num, hj⟩]


/-- Helper: if iterations 1 and 2 both succeed and iteration 1 does not
trigger the validation early stop, the run with `maxIterations ≥ 2` stops
at iteration 2 with convergence score `0` and an empty cumulative
signature set. -/
theorem iterate_stop_at_two (runPass : Nat → ScenarioResult) (m : Nat)
    (h1 : (runPass 1).success = true)
    (h1v : validation_stop_check (runPass 1).context = false)
    (h2 : (runPass 2).success = true) :
    iterate_go runPass 1 (m + 2) ⟨[], none, 0, ∅⟩ =
      ⟨[⟨1, (runPass 1).success, (runPass 1).error, (runPass 1).artifacts⟩,
        ⟨2, (runPass 2).success, (runPass 2).error, (runPass 2).artifacts⟩],
       some (runPass 2).context, 0, ∅⟩ := by
  have e1 : iterate_go runPass 1 (m + 2) ⟨[], none, 0, ∅⟩
      = iterate_go runPass 2 (m + 1)
          ⟨[⟨1, (runPass 1).success, (runPass 1).error, (runPass 1).artifacts⟩],
           some (runPass 1).context, 0, ∅⟩ := by
    rw [show m + 2 = (m + 1) + 1 from rfl,
      iterate_go_succ_one runPass (m + 1) ⟨[], none, 0, ∅⟩ h1 h1v]
    rfl
  have e2 : iterate_go runPass 2 (m + 1)
        ⟨[⟨1, (runPass 1).success, (runPass 1).error, (runPass 1).artifacts⟩],
         some (runPass 1).context, 0, ∅⟩
      = ⟨[⟨1, (runPass 1).success, (runPass 1).error, (runPass 1).artifacts⟩,
          ⟨2, (runPass 2).success, (runPass 2).error, (runPass 2).artifacts⟩],
         some (runPass 2).context, 0, ∅⟩ := by
    rw [iterate_go_succ_ge2_empty_prev runPass 2 m
      ⟨[⟨1, (runPass 1).success, (runPass 1).error, (runPass 1).artifacts⟩],
       some (runPass 1).context, 0, ∅⟩ (le_refl 2) h2 rfl]
    rfl
  rw [e1, e2]

/-- A successful per-iteration context whose `implementation_results`
yield the single change signature `"fileA:edit"` and which carries no
`validation_results`. -/
def ctxA : ActionContext :=
  ⟨[("implementation_results",
     Value.vlist [Value.vdict
       [("success", Value.vbool true), ("file", Value.vstr "fileA"),
        ("change_type", Value.vstr "edit")]])],
   [], []⟩

/-- Per-iteration behaviour realising the spec's concrete scenario #3:
every pass succeeds and produces the same signature set `{"fileA:edit"}`. -/
def passA : Nat → ScenarioResult := fun _ => ScenarioResult.success_result ctxA none

/-- C5 counterexample: with identical signatures `{"fileA:edit"}` at
iterations 1 and 2 and `maxIterations = 5`, the loop does stop after
iteration 2 — but the convergence score computed at iteration 2 is `0.0`,
not the claimed `1.0`, and the high-overlap stop (`score > 0.85`) does not
fire: iteration 1's signatures were never added to the cumulative previous
set, so the low-progress stop (`score < 0.1`) is what fires. -/
theorem C5_counterexample :
    extract_changes_from_context ctxA = {"fileA:edit"}
    ∧ (iterate_go passA 1 5 ⟨[], none, 0, ∅⟩).records.length = 2
    ∧ (iterate_go passA 1 5 ⟨[], none, 0, ∅⟩).convergence_score = 0
    ∧ ¬ ((iterate_go passA 1 5 ⟨[], none, 0, ∅⟩).convergence_score = 1)
    ∧ ¬ ((iterate_go passA 1 5 ⟨[], none, 0, ∅⟩).convergence_score > 85 / 100) := by
  have hrun := iterate_stop_at_two passA 3 rfl rfl rfl
  rw [show (5 : Nat) = 3 + 2 from rfl, hrun]
  refine ⟨by decide, rfl, rfl, by norm_num, by norm_num⟩

/-- C5 (amended): whenever iterations 1 and 2 both succeed with the same
extracted signature set `S` (any `S`, in particular the spec's
`{"fileA:edit"}`) and iteration 1 does not trigger the validation early
stop, the loop stops at iteration 2 — so by iteration 3 at the latest,
never reaching a larger `maxIterations` — but with convergence score `0.0`
via the low-progress stop (`score < 0.1`), not `1.0` via the high-overlap
stop: the cumulative previous-signature set is still empty at iteration 2. -/
theorem C5_stops_at_two_via_low_progress (runPass : Nat → ScenarioResult)
    (maxIter : Nat) (S : Finset String)
    (hmax : 2 ≤ maxIter)
    (h1 : (runPass 1).success = true)
    (h1v : validation_stop_check (runPass 1).context = false)
    (h2 : (runPass 2).success = true)
    (_h1s : extract_changes_from_context (runPass 1).context = S)
    (_h2s : extract_changes_from_context (runPass 2).context = S) :
    (iterate_go runPass 1 maxIter ⟨[], none, 0, ∅⟩).records.length = 2
    ∧ (iterate_go runPass 1 maxIter ⟨[], none, 0, ∅⟩).convergence_score = 0
    ∧ (iterate_go runPass 1 maxIter ⟨[], none, 0, ∅⟩).convergence_score < 1 / 10
    ∧ ¬ ((iterate_go runPass 1 maxIter ⟨[], none, 0, ∅⟩).convergence_score > 85 / 100)
    ∧ (iterate_go runPass 1 maxIter ⟨[], none, 0, ∅⟩).previous_changes = ∅ := by
  obtain ⟨m, rfl⟩ : ∃ m, maxIter = m + 2 := ⟨maxIter - 2, by omega⟩
  rw [iterate_stop_at_two runPass m h1 h1v h2]
  refine ⟨rfl, rfl, by norm_num, by norm_num, rfl⟩

theorem C5_stops_at_two_via_low_progress_witness :
    (iterate_go passA 1 5 ⟨[], none, 0, ∅⟩).records.length = 2
    ∧ (iterate_go passA 1 5 ⟨[], none, 0, ∅⟩).convergence_score < 1 / 10
    ∧ (iterate_go passA 1 5 ⟨[], none, 0, ∅⟩).previous_changes = ∅ := by
  have h := C5_stops_at_two_via_low_progress passA 5 {"fileA:edit"}
    (by norm_num) rfl rfl rfl (by decide) (by decide)
  exact ⟨h.1, h.2.2.1, h.2.2.2.2⟩

/-! ### C10: the low-progress stop at the first success after iteration 1 -/

/-- Helper: from iteration `j ≥ 2` with an empty cumulative signature set,
a stretch of `m` non-critical failures followed by a success at iteration
`j + m` stops the loop there with convergence score `0` and the cumulative
set still empty. -/
theorem iterate_fail_stretch (runPass : Nat → ScenarioResult) :
    ∀ (m j rem : Nat) (st : IterState), 2 ≤ j → st.previous_changes = ∅ →
      (∀ i, j ≤ i → i < j + m →
        (runPass i).success = false ∧ is_critical_error (runPass i).error = false) →
      (runPass (j + m)).success = true →
      (iterate_go runPass j (m + (rem + 1)) st).records.length = st.records.length + (m + 1)
      ∧ (iterate_go runPass j (m + (rem + 1)) st).convergence_score = 0
      ∧ (iterate_go runPass j (m + (rem + 1)) st).previous_changes = ∅ := by
  intro m
  induction m with
  | zero =>
    intro j rem st hj hprev _ hsucc
    rw [Nat.zero_add]
    rw [iterate_go_succ_ge2_empty_prev runPass j rem st hj (by simpa using hsucc) hprev]
    refine ⟨by simp, rfl, hprev⟩
  | succ m ih =>
    intro j rem st hj hprev hfail hsucc
    have hstep := hfail j (le_refl j) (by omega)
    have harr : (m + 1) + (rem + 1) = (m + (rem + 1)) + 1 := by omega
    rw [harr, iterate_go_fail_noncrit runPass j (m + (rem + 1)) st hstep.1 hstep.2]
    have hih := ih (j + 1) rem
      { st with records := st.records
          ++ [⟨j, (runPass j).success, (runPass j).error, (runPass j).artifacts⟩] }
      (by omega) (by simpa using hprev)
      (fun i hi1 hi2 => hfail i (by omega) (by omega))
      (by rw [show j + 1 + m = j + (m + 1) from by omega]; exact hsucc)
    rcases hih with ⟨hr, hc, hp⟩
    refine ⟨?_, hc, hp⟩
    rw [hr]
    simp
    omega

/-- C10: the change signatures of a successful iteration 1 are never added
to the cumulative previous-signature set (the union happens only in the
`iteration > 1` branch, after the threshold checks), so at the first
successful iteration `j ≥ 2` — all intermediate iterations having failed
non-critically — the cumulative set is still empty, the computed
convergence score is `0.0`, the low-progress stop fires, and the loop ends
at iteration `j`: no iteration after this second successful pass is ever
started. -/
theorem C10_low_progress_stop (runPass : Nat → ScenarioResult) (maxIter j : Nat)
    (hj : 2 ≤ j) (hmax : j ≤ maxIter)
    (h1s : (runPass 1).success = true → validation_stop_check (runPass 1).context = false)
    (h1f : (runPass 1).success = false → is_critical_error (runPass 1).error = false)
    (hmid : ∀ i, 2 ≤ i → i < j →
      (runPass i).success = false ∧ is_critical_error (runPass i).error = false)
    (hjs : (runPass j).success = true) :
    (iterate_go runPass 1 maxIter ⟨[], none, 0, ∅⟩).records.length = j
    ∧ (iterate_go runPass 1 maxIter ⟨[], none, 0, ∅⟩).convergence_score = 0
    ∧ (iterate_go runPass 1 maxIter ⟨[], none, 0, ∅⟩).previous_changes = ∅ := by
  obtain ⟨m, rfl⟩ : ∃ m, j = 2 + m := ⟨j - 2, by omega⟩
  obtain ⟨rem, hrem⟩ : ∃ rem, maxIter = (m + (rem + 1)) + 1 :=
    ⟨maxIter - (2 + m), by omega⟩
  subst hrem
  have hmid2 : ∀ i, 2 ≤ i → i < 2 + m →
      (runPass i).success = false ∧ is_critical_error (runPass i).error = false :=
    hmid
  cases hp1 : (runPass 1).success with
  | true =>
    rw [iterate_go_succ_one runPass (m + (rem + 1)) ⟨[], none, 0, ∅⟩ hp1 (h1s hp1)]
    have h := iterate_fail_stretch runPass m 2 rem
      ⟨[⟨1, (runPass 1).success, (runPass 1).error, (runPass 1).artifacts⟩],
       some (runPass 1).context, 0, ∅⟩
      (le_refl 2) rfl hmid2 hjs
    refine ⟨?_, h.2.1, h.2.2⟩
    rw [show (iterate_go runPass 2 (m + (rem + 1))
        { records := ([] : List IterationRecord)
            ++ [⟨1, (runPass 1).success, (runPass 1).error, (runPass 1).artifacts⟩],
          current_context := some (runPass 1).context,
          convergence_score := 0, previous_changes := ∅ }) =
      (iterate_go runPass 2 (m + (rem + 1))
        ⟨[⟨1, (runPass 1).success, (runPass 1).error, (runPass 1).artifacts⟩],
         some (runPass 1).context, 0, ∅⟩) from rfl]
    rw [h.1]
    simp
    omega
  | false =>
    rw [iterate_go_fail_noncrit runPass 1 (m + (rem + 1)) ⟨[], none, 0, ∅⟩ hp1 (h1f hp1)]
    have h := iterate_fail_stretch runPass m 2 rem
      ⟨[⟨1, (runPass 1).success, (runPass 1).error, (runPass 1).artifacts⟩],
       none, 0, ∅⟩
      (le_refl 2) rfl hmid2 hjs
    refine ⟨?_, h.2.1, h.2.2⟩
    rw [show (iterate_go runPass 2 (m + (rem + 1))
        { records := ([] : List IterationRecord)
            ++ [⟨1, (runPass 1).success, (runPass 1).error, (runPass 1).artifacts⟩],
          current_context := (none : Option ActionContext),
          convergence_score := 0, previous_changes := ∅ }) =
      (iterate_go runPass 2 (m + (rem + 1))
        ⟨[⟨1, (runPass 1).success, (runPass 1).error, (runPass 1).artifacts⟩],
         none, 0, ∅⟩) from rfl]
    rw [h.1]
    simp
    omega

/-- Per-iteration behaviour for the C10 witness: success, then a
non-critical failure, then success again. -/
def passC10 : Nat → ScenarioResult := fun j =>
  if j = 2 then ScenarioResult.error_result "temporary network hiccup" none
  else ScenarioResult.success_result ctxA none

theorem C10_low_progress_stop_witness :
    (iterate_go passC10 1 5 ⟨[], none, 0, ∅⟩).records.length = 3
    ∧ (iterate_go passC10 1 5 ⟨[], none, 0, ∅⟩).convergence_score = 0
    ∧ (iterate_go passC10 1 5 ⟨[], none, 0, ∅⟩).previous_changes = ∅ := by
  exact C10_low_progress_stop passC10 5 3 (by norm_num) (by norm_num)
    (fun _ => rfl) (fun h => Bool.noConfusion h)
    (by
      intro i h2 h3
      have hi : i = 2 := by omega
      subst hi
      exact ⟨rfl, rfl⟩)
    rfl

/-! ### C7: the result of an all-failed iterative run -/

/-- Helper: over a stretch of failing passes the loop never sets
`current_context`, never touches the score or the cumulative set, and
appends at least one record when at least one iteration is allowed. -/
theorem iterate_all_fail (runPass : Nat → ScenarioResult) :
    ∀ (rem j : Nat) (st : IterState),
      (∀ i, j ≤ i → i < j + rem → (runPass i).success = false) →
      (iterate_go runPass j rem st).current_context = st.current_context
      ∧ (iterate_go runPass j rem st).convergence_score = st.convergence_score
      ∧ (iterate_go runPass j rem st).previous_changes = st.previous_changes
      ∧ (0 < rem → st.records.length < (iterate_go runPass j rem st).records.length) := by
  intro rem
  induction rem with
  | zero =>
    intro j st _
    exact ⟨rfl, rfl, rfl, fun h => absurd h (by omega)⟩
  | succ rem ih =>
    intro j st hfail
    have hj : (runPass j).success = false := hfail j (le_refl j) (by omega)
    by_cases hc : is_critical_error (runPass j).error = true
    · rw [iterate_go_fail_crit runPass j rem st hj hc]
      refine ⟨rfl, rfl, rfl, fun _ => ?_⟩
      simp
    · have hc' : is_critical_error (runPass j).error = false := by simpa using hc
      rw [iterate_go_fail_noncrit runPass j rem st hj hc']
      have hih := ih (j + 1)
        { st with records := st.records
            ++ [⟨j, (runPass j).success, (runPass j).error, (runPass j).artifacts⟩] }
        (fun i hi1 hi2 => hfail i (by omega) (by omega))
      rcases hih with ⟨h1, h2, h3, h4⟩
      refine ⟨by rw [h1], by rw [h2], by rw [h3], fun _ => ?_⟩
      cases hrem : rem with
      | zero =>
        subst hrem
        simp [iterate_go]
      | succ rem' =>
        subst hrem
        have := h4 (by omega)
        simp at this
        omega

/-- C7 (amended): when `maxIterations ≥ 1` and every pass fails, the run
returns a SUCCESS result (`success=true`), not an error result: the code
wraps `current_context or ActionContext()` in
`ScenarioResult.success_result` unconditionally after the loop.  The
result's context is a fresh empty one and its artifacts are exactly the
synthesized per-iteration summary (the single key
`"iteration_summary.md"`). -/
theorem C7_all_failed_returns_success (runPass : Nat → ScenarioResult)
    (goal : String) (maxIter : Nat)
    (hmax : 1 ≤ maxIter)
    (hfail : ∀ i, 1 ≤ i → i ≤ maxIter → (runPass i).success = false) :
    (execute_with_iterations runPass goal maxIter).success = true
    ∧ (execute_with_iterations runPass goal maxIter).context = empty_context
    ∧ (execute_with_iterations runPass goal maxIter).artifacts
        = generate_iteration_summary (iterate_go runPass 1 maxIter ⟨[], none, 0, ∅⟩).records goal
    ∧ (execute_with_iterations runPass goal maxIter).artifacts.map (fun p => p.1)
        = ["iteration_summary.md"] := by
  obtain ⟨hcc, _, _, hlen⟩ := iterate_all_fail runPass maxIter 1 ⟨[], none, 0, ∅⟩
    (fun i hi1 hi2 => hfail i hi1 (by omega))
  have hpos : 0 < (iterate_go runPass 1 maxIter ⟨[], none, 0, ∅⟩).records.length := by
    have := hlen (by omega)
    simpa using this
  have hne : (iterate_go runPass 1 maxIter ⟨[], none, 0, ∅⟩).records.isEmpty = false := by
    cases hrec : (iterate_go runPass 1 maxIter ⟨[], none, 0, ∅⟩).records with
    | nil => rw [hrec] at hpos; simp at hpos
    | cons a l => simp [List.isEmpty]
  simp only [execute_with_iterations]
  rw [hne]
  simp only [Bool.false_eq_true, if_false]
  rw [hcc]
  refine ⟨rfl, rfl, ?_, ?_⟩
  · simp [ScenarioResult.success_result, generate_iteration_summary, List.isEmpty]
  · simp [ScenarioResult.success_result, generate_iteration_summary, List.isEmpty]

/-- Per-iteration behaviour where every pass fails non-critically. -/
def passFail : Nat → ScenarioResult :=
  fun _ => ScenarioResult.error_result "temporary network hiccup" none

/-- C7 counterexample: with `maxIterations = 3` and every pass failing,
`execute_with_iterations` returns a result with `success = true` — an
(empty-context) success result carrying the synthesized summary — not the
error result the claim demands. -/
theorem C7_counterexample :
    (∀ r ∈ (iterate_go passFail 1 3 ⟨[], none, 0, ∅⟩).records, r.success = false)
    ∧ (execute_with_iterations passFail "Improve code quality" 3).success = true
    ∧ (execute_with_iterations passFail "Improve code quality" 3).error = none
    ∧ (execute_with_iterations passFail "Improve code quality" 3).artifacts.map (fun p => p.1)
        = ["iteration_summary.md"] := by
  refine ⟨?_, rfl, rfl, rfl⟩
  decide

theorem C7_all_failed_returns_success_witness :
    (execute_with_iterations passFail "Improve code quality" 3).success = true
    ∧ (execute_with_iterations passFail "Improve code quality" 3).context = empty_context := by
  have h := C7_all_failed_returns_success passFail "Improve code quality" 3
    (by norm_num) (fun i _ _ => rfl)
  exact ⟨h.1, h.2.1⟩

/-! ### Concrete instantiations of the hypothesis-free claim theorems -/

/-- Registry realising the spec's concrete scenario #2: a step writing
`x = 2` over a context where an earlier step wrote `x = 1`. -/
def c2Acts : Registry := fun name =>
  if name = "b" then
    some ⟨[], fun _ => ActionResult.success_result [("x", Value.vint 2)] []⟩
  else none

theorem C2_merge_invariant_witness :
    dictGet (merge_result ⟨[("x", Value.vint 1)], [], []⟩ "b"
        (execute_action c2Acts "b" ⟨[("x", Value.vint 1)], [], []⟩)).data "x"
      = some (Value.vint 2) := by
  have h := (C2_merge_invariant c2Acts "b" ⟨[("x", Value.vint 1)], [], []⟩ 1 [] "x").1
  rw [h]
  rfl

theorem C4_convergence_bounds_witness :
    calculate_convergence_score {"a"} {"a"} = 1 := by
  exact (C4_convergence_bounds {"a"} {"a"}).2.1.mpr ⟨rfl, ⟨"a", by simp⟩⟩

theorem C8_critical_classification_witness :
    is_critical_error (some "permission denied writing file") = true := by
  exact (C8_critical_classification (some "permission denied writing file")).1.mpr
    ⟨"permission", by decide, by decide⟩

theorem C9_single_pass_always_fails_witness :
    (code_improvement_execute (register_actions c6Beh) "T" "C" []).success = false := by
  exact (C9_single_pass_always_fails c6Beh "T" "C" []).1
